import Mathlib

/-!
Shallow embedding of `homework.py` (a Telegram homework-status polling bot)
and verification of the specification's claims about it.

Python values flowing through the program (decoded JSON payloads, homework
items) are modelled by the inductive type `PyVal`.  Exceptions are modelled
by the inductive type `Err` and fallible code returns `Except Err _`.
Module-level environment reads (`os.getenv`) become an explicit `Env`
record of `Option String` values, and the two network effects (the HTTP GET
issued by `requests.get` and the Telegram `bot.send_message` call) become
explicit outcome parameters threaded into the functions that perform them.
-/

/-- A Python value as it occurs in this program: strings, integers,
booleans, `None`, lists and (string-keyed) dicts, which is exactly the
range of decoded JSON payloads the bot manipulates. -/
inductive PyVal where
  | str (s : String)
  | int (n : Int)
  | bool (b : Bool)
  | null
  | list (xs : List PyVal)
  | dict (kvs : List (String × PyVal))

mutual

/-- Python `repr` of a value, as used by `str()` on containers. -/
def pyRepr : PyVal → String
  | .str s => "\x27" ++ s ++ "\x27"
  | .int n => toString n
  | .bool b => cond b "True" "False"
  | .null => "None"
  | .list xs => "[" ++ pyReprSeq xs ++ "]"
  | .dict kvs => "\x7b" ++ pyReprPairs kvs ++ "\x7d"

/-- Comma-separated `repr`s of list elements. -/
def pyReprSeq : List PyVal → String
  | [] => ""
  | [x] => pyRepr x
  | x :: xs => pyRepr x ++ ", " ++ pyReprSeq xs

/-- Comma-separated `repr`s of dict entries. -/
def pyReprPairs : List (String × PyVal) → String
  | [] => ""
  | [(k, v)] => "\x27" ++ k ++ "\x27: " ++ pyRepr v
  | (k, v) :: kvs => "\x27" ++ k ++ "\x27: " ++ pyRepr v ++ ", " ++ pyReprPairs kvs

end

/-- Python `str()` of a value (what an f-string interpolates). -/
def pyStr : PyVal → String
  | .str s => s
  | v => pyRepr v

/-- The exceptions this program raises or catches.  `exceptions.py` is not
part of the sources; modelled from the spec (section 7): `RequestError`,
`UnexpectedResponseData` and `MessageNotSent` are distinct error kinds,
i.e. direct subclasses of `Exception`, alongside Python's built-in
`TypeError`, `KeyError`, `ValueError` and `IndexError`; `other` stands for
any further unclassified exception.  Each carries its message string
(`str(exception)` modulo the `KeyError` quirk handled in `errStr`). -/
inductive Err where
  | unexpectedResponseData (msg : String)
  | requestError (msg : String)
  | messageNotSent (msg : String)
  | typeError (msg : String)
  | keyError (msg : String)
  | valueError (msg : String)
  | indexError (msg : String)
  | other (msg : String)

/-- Python `str()` of an exception, as interpolated by the f-strings in
`main`.  `str(KeyError(m))` is `repr(m)`, i.e. the message in quotes. -/
def errStr : Err → String
  | .unexpectedResponseData m => m
  | .requestError m => m
  | .messageNotSent m => m
  | .typeError m => m
  | .keyError m => "\x27" ++ m ++ "\x27"
  | .valueError m => m
  | .indexError m => m
  | .other m => m

/-- First value stored under key `k` in a dict's entry list (Python dicts
have unique keys; lookup takes the first match). -/
def lookupKey (k : String) : List (String × PyVal) → Option PyVal
  | [] => none
  | (k', v) :: kvs => if k' = k then some v else lookupKey k kvs

/-- Whether the character list `p` occurs inside `l` (Python substring
membership `p in l` for strings). -/
def charsInfix (p l : List Char) : Bool :=
  l.tails.any (fun t => p.isPrefixOf t)

/-- Python `k in v` for a string `k`: key membership for dicts, substring
test for strings, element membership for lists (a string compares equal
only to equal strings), `TypeError` for non-iterable values. -/
def pyContains (k : String) : PyVal → Except Err Bool
  | .dict kvs => .ok (kvs.any (fun p => p.1 = k))
  | .str s => .ok (charsInfix k.data s.data)
  | .list xs => .ok (xs.any (fun v => match v with | .str s => s = k | _ => false))
  | _ => .error (.typeError ("argument of type is not iterable"))

/-- Python `v[k]` for a string key `k`: dict lookup raising `KeyError(k)`
when absent, `TypeError` on any non-dict value. -/
def pyIndex (k : String) : PyVal → Except Err PyVal
  | .dict kvs =>
      match lookupKey k kvs with
      | some v => .ok v
      | none => .error (.keyError k)
  | _ => .error (.typeError ("value is not subscriptable with a string"))

/-- The module-level constant `HOMEWORK_VERDICTS`. -/
def HOMEWORK_VERDICTS : List (String × String) :=
  [("reviewing", "Работа взята на проверку ревьюером."),
   ("rejected", "Работа проверена: у ревьюера есть замечания."),
   ("approved", "Работа проверена: ревьюеру всё понравилось. Ура!")]

/-- The three environment values read at module level via `os.getenv`
(`none` when the variable is unset). -/
structure Env where
  TELEGRAM_TOKEN : Option String
  PRACTICUM_TOKEN : Option String
  TELEGRAM_CHAT_ID : Option String

/-- Python truthiness of an `os.getenv` result: `None` and `""` are falsy,
every other string is truthy. -/
def pyTruthyOpt : Option String → Bool
  | none => false
  | some s => ¬ (s = "")

/-- `check_tokens`: `all([TELEGRAM_TOKEN, PRACTICUM_TOKEN, TELEGRAM_CHAT_ID])`. -/
def check_tokens (env : Env) : Bool :=
  pyTruthyOpt env.TELEGRAM_TOKEN && pyTruthyOpt env.PRACTICUM_TOKEN
    && pyTruthyOpt env.TELEGRAM_CHAT_ID

/-- `send_message`: forwards the text to `bot.send_message`; any exception
from the bot client (modelled by the `botSend` outcome, `Except.error`
carrying `str(error)`) is re-raised as `MessageNotSent`. -/
def send_message (botSend : Except String Unit) (message : String) : Except Err Unit :=
  match botSend, message with
  | .ok _, _ => .ok ()
  | .error err, _ => .error (.messageNotSent ("Ошибка при отправке: " ++ err))

/-- The members of Python's `http.HTTPStatus` enumeration with their
phrases: `HTTPStatus(value=c)` succeeds exactly on these codes. -/
def httpStatusMembers : List (Nat × String) :=
  [(100, "Continue"), (101, "Switching Protocols"), (102, "Processing"),
   (103, "Early Hints"),
   (200, "OK"), (201, "Created"), (202, "Accepted"),
   (203, "Non-Authoritative Information"), (204, "No Content"),
   (205, "Reset Content"), (206, "Partial Content"), (207, "Multi-Status"),
   (208, "Already Reported"), (226, "IM Used"),
   (300, "Multiple Choices"), (301, "Moved Permanently"), (302, "Found"),
   (303, "See Other"), (304, "Not Modified"), (305, "Use Proxy"),
   (307, "Temporary Redirect"), (308, "Permanent Redirect"),
   (400, "Bad Request"), (401, "Unauthorized"), (402, "Payment Required"),
   (403, "Forbidden"), (404, "Not Found"), (405, "Method Not Allowed"),
   (406, "Not Acceptable"), (407, "Proxy Authentication Required"),
   (408, "Request Timeout"), (409, "Conflict"), (410, "Gone"),
   (411, "Length Required"), (412, "Precondition Failed"),
   (413, "Request Entity Too Large"), (414, "Request-URI Too Long"),
   (415, "Unsupported Media Type"), (416, "Requested Range Not Satisfiable"),
   (417, "Expectation Failed"), (418, "I\x27m a Teapot"),
   (421, "Misdirected Request"), (422, "Unprocessable Entity"),
   (423, "Locked"), (424, "Failed Dependency"), (425, "Too Early"),
   (426, "Upgrade Required"), (428, "Precondition Required"),
   (429, "Too Many Requests"), (431, "Request Header Fields Too Large"),
   (451, "Unavailable For Legal Reasons"),
   (500, "Internal Server Error"), (501, "Not Implemented"),
   (502, "Bad Gateway"), (503, "Service Unavailable"),
   (504, "Gateway Timeout"), (505, "HTTP Version Not Supported"),
   (506, "Variant Also Negotiates"), (507, "Insufficient Storage"),
   (508, "Loop Detected"), (510, "Not Extended"),
   (511, "Network Authentication Required")]

/-- Phrase of a status code when it is an `HTTPStatus` member. -/
def statusPhrase (c : Nat) : Option String :=
  (httpStatusMembers.find? (fun p => p.1 = c)).map (fun p => p.2)

/-- `HTTPStatus(value=c)`: the member, or `ValueError` for a non-member. -/
def httpStatusOf (c : Nat) : Except Err (Nat × String) :=
  match httpStatusMembers.find? (fun p => p.1 = c) with
  | some p => .ok p
  | none => .error (.valueError (toString c ++ " is not a valid HTTPStatus"))

/-- The observable parts of a `requests.Response`: the numeric status code,
the raw body text, and the outcome of `response.json()` on that body
(`Except.error` carries the decode error's message). -/
structure HttpResponse where
  status_code : Nat
  text : String
  json : Except String PyVal

/-- Outcome of `requests.get(**request_params)`: either a raised
`requests.RequestException` (with its message) or a response. -/
inductive RequestResult where
  | exn (msg : String)
  | resp (r : HttpResponse)

/-- `get_api_answer`: wraps transport failures in `RequestError`, checks
the HTTP status via `HTTPStatus(value=...)` against `HTTPStatus.OK`,
then decodes the body, wrapping decode failures in
`UnexpectedResponseData`.  The single `RequestResult` parameter is the
outcome of the one `requests.get` call the function performs. -/
def get_api_answer (req : RequestResult) : Except Err PyVal := do
  let response ← match req with
    | .exn msg =>
        .error (.requestError ("Ошибка при совершении запроса к API: " ++ msg))
    | .resp r => .ok r
  let status ← httpStatusOf response.status_code
  if ¬ (status.1 = 200) then
    .error (.requestError
      ("Статус ответа: " ++ toString status.1 ++ " " ++ status.2 ++ ". " ++
       "Полный текст: " ++ response.text))
  else
    match response.json with
    | .ok result => .ok result
    | .error err =>
        .error (.unexpectedResponseData ("Не удалось распарсить ответ: " ++ err))

/-- `check_response`: validates the decoded payload shape, in source
order — dict type, key `"homeworks"` present, list type, non-empty. -/
def check_response (response : PyVal) : Except Err Unit :=
  match response with
  | .dict kvs =>
      match lookupKey "homeworks" kvs with
      | none => .error (.keyError "В ответе отсутствует ключ со списком работ")
      | some hws =>
          match hws with
          | .list items =>
              if items.isEmpty then
                .error (.unexpectedResponseData
                  ("API вернула пустой список домашних работ: " ++
                   "ни одна работа пока не взята на проверку"))
              else .ok ()
          | _ => .error (.typeError "Тип данных списка работ отличается от list")
  | _ => .error (.typeError "Тип данных ответа отличается от dict")

/-- Lexicographic strict order on character lists by code point: how
Python compares strings. -/
def charsLt : List Char → List Char → Bool
  | _, [] => false
  | [], _ :: _ => true
  | a :: as, b :: bs =>
      if a.toNat < b.toNat then true
      else if b.toNat < a.toNat then false
      else charsLt as bs

/-- Python `a < b` for strings: code-point lexicographic comparison. -/
def strLtB (a b : String) : Bool :=
  charsLt a.data b.data

/-- Python `a < b` on the key values fed to `sorted`: strings compare
lexicographically by code point, numbers numerically (`bool` is an `int`
subclass); any other comparison raises `TypeError` (the claims only ever
compare the string-typed `date_updated` keys). -/
def pyLt : PyVal → PyVal → Except Err Bool
  | .str a, .str b => .ok (strLtB a b)
  | .int a, .int b => .ok (decide (a < b))
  | .int a, .bool b => .ok (decide (a < (cond b 1 0 : Int)))
  | .bool a, .int b => .ok (decide ((cond a 1 0 : Int) < b))
  | .bool a, .bool b => .ok (decide ((cond a 1 0 : Int) < cond b 1 0))
  | _, _ => .error (.typeError "unorderable types")

/-- Insert a decorated element into an already stable-descending-sorted
list of decorated elements, keeping the sort stable and descending: the
element moves past exactly those whose key is strictly greater. -/
def insortDesc (p : PyVal × PyVal) : List (PyVal × PyVal) → Except Err (List (PyVal × PyVal))
  | [] => .ok [p]
  | q :: qs => do
      if (← pyLt p.2 q.2) then
        let rest ← insortDesc p qs
        .ok (q :: rest)
      else
        .ok (p :: q :: qs)

/-- Stable descending sort of decorated elements, the result of
`sorted(..., key=..., reverse=True)`: elements with equal keys keep their
original relative order. -/
def sortPairsDesc : List (PyVal × PyVal) → Except Err (List (PyVal × PyVal))
  | [] => .ok []
  | p :: ps => do
      let rest ← sortPairsDesc ps
      insortDesc p rest

/-- The `for` loop of `get_latest_homework`: raise `KeyError` at the first
item not containing `"date_updated"`. -/
def checkDates : List PyVal → Except Err Unit
  | [] => .ok ()
  | hw :: rest => do
      if (← pyContains "date_updated" hw) then checkDates rest
      else .error (.keyError "Не у всех работ указана дата обновления")

/-- Key decoration performed by `sorted(..., key=lambda hw: hw["date_updated"])`:
each element is paired with its key (CPython computes all keys up front). -/
def decorateDates : List PyVal → Except Err (List (PyVal × PyVal))
  | [] => .ok []
  | hw :: rest => do
      let k ← pyIndex "date_updated" hw
      let tail ← decorateDates rest
      .ok ((hw, k) :: tail)

/-- `get_latest_homework`: checks every item carries `"date_updated"`,
then returns `sorted(response["homeworks"], key=..., reverse=True)[0]`.
Iteration is modelled for list-valued `"homeworks"` (the shape `main`
guarantees via `check_response` before calling this). -/
def get_latest_homework (response : PyVal) : Except Err PyVal := do
  let hws ← pyIndex "homeworks" response
  match hws with
  | .list items => do
      checkDates items
      let pairs ← decorateDates items
      let sortedPairs ← sortPairsDesc pairs
      match sortedPairs with
      | [] => .error (.indexError "list index out of range")
      | p :: _ => .ok p.1
  | _ => .error (.typeError "object is not iterable")

/-- Lookup in the `HOMEWORK_VERDICTS` dict. -/
def verdictLookup (s : String) : Option String :=
  (HOMEWORK_VERDICTS.find? (fun p => p.1 = s)).map (fun p => p.2)

/-- `parse_status`: requires `homework_name` and `status` keys and a
`status` value that is a `HOMEWORK_VERDICTS` key, each violation raising a
distinct `KeyError` in source order; then builds the f-string message.
(A dict-membership probe with an unhashable value is not modelled; the
claims probe string-valued statuses.) -/
def parse_status (homework : PyVal) : Except Err String := do
  if ¬ (← pyContains "homework_name" homework) then
    throw (.keyError "У домашней работы отсутствет название")
  if ¬ (← pyContains "status" homework) then
    throw (.keyError "У домашней работы отсутствет статус")
  let statusVal ← pyIndex "status" homework
  let inVocab : Bool := match statusVal with
    | .str s => HOMEWORK_VERDICTS.any (fun p => p.1 = s)
    | _ => false
  if ¬ inVocab then
    throw (.keyError "Домашняя работа содержит неизвестный статус")
  let homework_name ← pyIndex "homework_name" homework
  let statusVal2 ← pyIndex "status" homework
  let verdict ← match statusVal2 with
    | .str s =>
        match verdictLookup s with
        | some v => .ok v
        | none => .error (.keyError s)
    | _ => .error (.typeError "unhashable probe not modelled")
  .ok ("Изменился статус проверки работы \"" ++ pyStr homework_name ++ "\". " ++ verdict)

/-- The external outcomes one cycle of the main loop can observe: the
result of its single `requests.get` call and, if a notification is
attempted, the result of the single `bot.send_message` call. -/
structure CycleEnv where
  api : RequestResult
  botSend : Except String Unit

/-- The `try` body of a polling cycle: `get_api_answer` (called with its
default cursor), `check_response`, `get_latest_homework`, `parse_status`,
producing `current_status` on success. -/
def cyclePipeline (api : RequestResult) : Except Err String := do
  let response ← get_api_answer api
  check_response response
  let homework ← get_latest_homework response
  parse_status homework

/-- Whether an exception matches the first `except` clause of the cycle:
`(e.UnexpectedResponseData, e.RequestError, TypeError, KeyError)`. -/
def isCycleKnownError : Err → Bool
  | .unexpectedResponseData _ => true
  | .requestError _ => true
  | .typeError _ => true
  | .keyError _ => true
  | _ => false

/-- The two `except` clauses guarding the polling pipeline: known errors
become a "Технические неполадки" status, everything else (the bare
`except Exception`) a "Неизвестный сбой в работе" status; both continue. -/
def handleCycleError (err : Err) : String :=
  if isCycleKnownError err then "Технические неполадки: " ++ errStr err
  else "Неизвестный сбой в работе: " ++ errStr err

/-- `current_status` as computed by the `try`/`except` block at the top of
a cycle. -/
def computeCurrentStatus (api : RequestResult) : String :=
  match cyclePipeline api with
  | .ok s => s
  | .error err => handleCycleError err

/-- What one cycle leaves behind: the value of `previous_status` after
line 181 and whether `send_message` was invoked this cycle. -/
structure CycleResult where
  previous_status : String
  send_attempted : Bool

/-- One iteration of the `while True` loop: compute `current_status`,
skip notification when it equals `previous_status`, otherwise attempt
`send_message` with its own `try`/`except` (a `MessageNotSent` overwrites
`current_status` with the failed-to-send message, which is not re-sent),
then assign `previous_status = current_status`. -/
def run_cycle (env : CycleEnv) (previous_status : String) : CycleResult :=
  let current_status := computeCurrentStatus env.api
  if current_status = previous_status then
    ⟨previous_status, false⟩
  else
    match send_message env.botSend current_status with
    | .ok _ => ⟨current_status, true⟩
    | .error (.messageNotSent m) =>
        ⟨"Не удалось отправить сообщение: " ++ errStr (Err.messageNotSent m), true⟩
    | .error err => ⟨"Неизвестный сбой в работе: " ++ errStr err, true⟩

/-- Run the loop for finitely many cycles; returns the final
`previous_status` and the total number of `send_message` attempts. -/
def run_cycles : List CycleEnv → String → String × Nat
  | [], prev => (prev, 0)
  | env :: rest, prev =>
      let r := run_cycle env prev
      let (p, n) := run_cycles rest r.previous_status
      (p, (cond r.send_attempted 1 0) + n)

/-- How an execution of `main` observed over finitely many cycles ends:
aborted at startup via `sys.exit`, or still running with its loop state. -/
inductive MainOutcome where
  | aborted (msg : String)
  | running (previous_status : String) (attempts : Nat)

/-- `main`: validate configuration with `check_tokens` (on failure
`sys.exit` with the critical message), then initialise
`previous_status = ""` and run the polling loop.  (Lean reserves the bare
name `main` for entry points, hence the namespace.) -/
def Homework.main (env : Env) (cycles : List CycleEnv) : MainOutcome :=
  if ¬ check_tokens env then .aborted "Не все переменные окружения доступны"
  else
    let (p, n) := run_cycles cycles ""
    .running p n

/-- The `date_updated` value of a homework item, when the item is a dict
carrying a string under that key. -/
def dictDate (hw : PyVal) : Option String :=
  match hw with
  | .dict kvs =>
      match lookupKey "date_updated" kvs with
      | some (.str s) => some s
      | _ => none
  | _ => none

/-- Sort key of an item in the string-keyed case (claims only concern
items whose `date_updated` is a string, per the spec's data model). -/
def dateOf (hw : PyVal) : String :=
  (dictDate hw).getD ""

/-- Whether a homework item is a dict carrying the `"date_updated"` key
(with a value of any type). -/
def hasDateKey : PyVal → Bool
  | .dict kvs => (lookupKey "date_updated" kvs).isSome
  | _ => false

/-- Scan for the element with the maximal key, keeping the earlier element
on ties (`b` is the current best and precedes the remaining list). -/
def firstMaxAux (b : PyVal) : List PyVal → PyVal
  | [] => b
  | y :: ys => if strLtB (dateOf b) (dateOf y) then firstMaxAux y ys else firstMaxAux b ys

/-- Modelled from the spec (section 4.4), as the reference value for the
refinement claim about `get_latest_homework`: "the item with the maximum
`date_updated` under a total string/lexical order", with "the element
appearing first among equal keys" selected on ties. -/
def first_max_by_date : List PyVal → Option PyVal
  | [] => none
  | x :: xs => some (firstMaxAux x xs)

/-- Key of a decorated element in the string-keyed case. -/
def pKey (q : PyVal × PyVal) : String :=
  match q.2 with
  | .str s => s
  | _ => ""

/-- `insortDesc` specialised to string keys, where no comparison can
raise: the infallible value it computes. -/
def insortStr (p : PyVal × PyVal) : List (PyVal × PyVal) → List (PyVal × PyVal)
  | [] => [p]
  | q :: qs => if strLtB (pKey p) (pKey q) then q :: insortStr p qs else p :: q :: qs

/-- `sortPairsDesc` specialised to string keys. -/
def sortStr : List (PyVal × PyVal) → List (PyVal × PyVal)
  | [] => []
  | p :: ps => insortStr p (sortStr ps)

/-- First maximum of decorated elements: the earlier element wins ties. -/
def pairFM (b : PyVal × PyVal) : List (PyVal × PyVal) → PyVal × PyVal
  | [] => b
  | y :: ys => if strLtB (pKey b) (pKey y) then pairFM y ys else pairFM b ys

/-- Discriminator: does an API-client outcome carry a `RequestError`? -/
def isRequestError : Except Err PyVal → Bool
  | .error (.requestError _) => true
  | _ => false

example : check_tokens ⟨some "a", some "b", some "c"⟩ = true := by decide
example : check_tokens ⟨some "a", some "", some "c"⟩ = false := by decide
example : pyStr (.dict [("a", .int 1)]) = "\x7b\x27a\x27: 1\x7d" := by rfl

example : get_api_answer (.resp ⟨200, "t", .ok (.dict [])⟩) = .ok (.dict []) := by rfl

example : get_api_answer (.resp ⟨404, "oops", .ok .null⟩)
    = .error (.requestError "Статус ответа: 404 Not Found. Полный текст: oops") := by rfl

example : get_api_answer (.resp ⟨599, "body", .ok .null⟩)
    = .error (.valueError "599 is not a valid HTTPStatus") := by rfl

example : get_api_answer (.exn "timeout")
    = .error (.requestError "Ошибка при совершении запроса к API: timeout") := by rfl

example : check_response (.dict [("homeworks", .list [.null])]) = .ok () := by rfl

example : check_response (.dict []) =
    .error (.keyError "В ответе отсутствует ключ со списком работ") := by rfl

example :
    get_latest_homework
      (.dict [("homeworks", .list
        [.dict [("date_updated", .str "2023-01-01")],
         .dict [("date_updated", .str "2023-02-01")]])])
    = .ok (.dict [("date_updated", .str "2023-02-01")]) := by rfl

example :
    parse_status (.dict [("homework_name", .str "hw1"), ("status", .str "approved")])
    = .ok ("Изменился статус проверки работы \"hw1\". " ++
           "Работа проверена: ревьюеру всё понравилось. Ура!") := by rfl

example :
    run_cycle ⟨.exn "boom", .ok ()⟩ "Технические неполадки: Ошибка при совершении запроса к API: boom"
    = ⟨"Технические неполадки: Ошибка при совершении запроса к API: boom", false⟩ := by rfl

/-! ### Order properties of the code-point lexicographic comparison -/

theorem charsLt_trans :
    ∀ (a b c : List Char), charsLt a b = true → charsLt b c = true →
      charsLt a c = true := by
  intro a
  induction a with
  | nil =>
      intro b c hab hbc
      cases c with
      | nil =>
          cases b with
          | nil => simp [charsLt] at hab
          | cons y ys => simp [charsLt] at hbc
      | cons z zs => simp [charsLt]
  | cons x xs ih =>
      intro b c hab hbc
      cases b with
      | nil => simp [charsLt] at hab
      | cons y ys =>
          cases c with
          | nil => simp [charsLt] at hbc
          | cons z zs =>
              by_cases h1 : x.toNat < y.toNat
              · by_cases h2 : y.toNat < z.toNat
                · have hxz : x.toNat < z.toNat := Nat.lt_trans h1 h2
                  simp [charsLt, hxz]
                · by_cases h2' : z.toNat < y.toNat
                  · simp [charsLt, h2, h2'] at hbc
                  · have hxz : x.toNat < z.toNat := by omega
                    simp [charsLt, hxz]
              · by_cases h1' : y.toNat < x.toNat
                · simp [charsLt, h1, h1'] at hab
                · simp only [charsLt, if_neg h1, if_neg h1'] at hab
                  by_cases h2 : y.toNat < z.toNat
                  · have hxz : x.toNat < z.toNat := by omega
                    simp [charsLt, hxz]
                  · by_cases h2' : z.toNat < y.toNat
                    · simp [charsLt, h2, h2'] at hbc
                    · simp only [charsLt, if_neg h2, if_neg h2'] at hbc
                      have hxz1 : ¬ x.toNat < z.toNat := by omega
                      have hxz2 : ¬ z.toNat < x.toNat := by omega
                      simp only [charsLt, if_neg hxz1, if_neg hxz2]
                      exact ih ys zs hab hbc

theorem charsLt_false_trans :
    ∀ (a b c : List Char), charsLt a b = false → charsLt b c = false →
      charsLt a c = false := by
  intro a
  induction a with
  | nil =>
      intro b c hab hbc
      cases c with
      | nil => simp [charsLt]
      | cons z zs =>
          cases b with
          | nil => simp [charsLt] at hbc
          | cons y ys => simp [charsLt] at hab
  | cons x xs ih =>
      intro b c hab hbc
      cases c with
      | nil => simp [charsLt]
      | cons z zs =>
          cases b with
          | nil => simp [charsLt] at hbc
          | cons y ys =>
              by_cases h1 : x.toNat < y.toNat
              · simp [charsLt, h1] at hab
              · by_cases h2 : y.toNat < z.toNat
                · simp [charsLt, h2] at hbc
                · by_cases hxz : x.toNat < z.toNat
                  · exfalso
                    omega
                  · by_cases hzx : z.toNat < x.toNat
                    · simp [charsLt, hxz, hzx]
                    · simp only [charsLt, if_neg hxz, if_neg hzx]
                      by_cases h1' : y.toNat < x.toNat
                      · exfalso
                        omega
                      · by_cases h2' : z.toNat < y.toNat
                        · exfalso
                          omega
                        · simp only [charsLt, if_neg h1, if_neg h1'] at hab
                          simp only [charsLt, if_neg h2, if_neg h2'] at hbc
                          exact ih ys zs hab hbc

theorem strLtB_trans {a b c : String} (hab : strLtB a b = true)
    (hbc : strLtB b c = true) : strLtB a c = true :=
  charsLt_trans a.data b.data c.data hab hbc

theorem strLtB_false_trans {a b c : String} (hab : strLtB a b = false)
    (hbc : strLtB b c = false) : strLtB a c = false :=
  charsLt_false_trans a.data b.data c.data hab hbc

/-! ### Lookup and membership bridging lemmas -/

theorem exceptOkBind {α β ε : Type} (a : α) (f : α → Except ε β) :
    ((Except.ok a : Except ε α) >>= f) = f a := rfl

theorem exceptErrBind {α β ε : Type} (e : ε) (f : α → Except ε β) :
    ((Except.error e : Except ε α) >>= f) = Except.error e := rfl

theorem exceptThrowBind {α ε : Type} (e : ε) (f : Unit → Except ε α) :
    ((throw e : Except ε Unit) >>= f) = Except.error e := rfl

theorem any_eq_isSome_find (p : α → Bool) :
    ∀ l : List α, l.any p = (l.find? p).isSome := by
  intro l
  induction l with
  | nil => rfl
  | cons x xs ih =>
      by_cases h : p x = true
      · simp [List.any_cons, List.find?_cons, h]
      · simp only [Bool.not_eq_true] at h
        simp [List.any_cons, List.find?_cons, h, ih]

theorem lookupKey_any (k : String) :
    ∀ kvs : List (String × PyVal),
      (kvs.any (fun p => p.1 = k)) = (lookupKey k kvs).isSome := by
  intro kvs
  induction kvs with
  | nil => rfl
  | cons q qs ih =>
      by_cases h : q.1 = k
      · simp [List.any_cons, lookupKey, h]
      · simp [List.any_cons, lookupKey, h, ih]

theorem pyContains_dict (k : String) (kvs : List (String × PyVal)) :
    pyContains k (.dict kvs) = .ok ((lookupKey k kvs).isSome) := by
  simp [pyContains, lookupKey_any]

/-! ### The sort on string-keyed decorations -/

/-- All keys of the decorated list are strings. -/
def allStrKeys (ps : List (PyVal × PyVal)) : Prop :=
  ∀ q ∈ ps, ∃ s, (q : PyVal × PyVal).2 = PyVal.str s

theorem pyLt_str {p q : PyVal × PyVal} (a b : String)
    (hp : p.2 = PyVal.str a) (hq : q.2 = PyVal.str b) :
    pyLt p.2 q.2 = .ok (strLtB a b) := by
  rw [hp, hq]
  rfl

theorem pKey_str {p : PyVal × PyVal} {a : String} (hp : p.2 = PyVal.str a) :
    pKey p = a := by
  simp [pKey, hp]

theorem insortDesc_eq_insortStr (p : PyVal × PyVal) (a : String)
    (hp : p.2 = PyVal.str a) :
    ∀ qs, allStrKeys qs → insortDesc p qs = .ok (insortStr p qs) := by
  intro qs
  induction qs with
  | nil => intro _; rfl
  | cons q qs ih =>
      intro hall
      obtain ⟨b, hq⟩ := hall q (List.mem_cons_self q qs)
      have hqs : allStrKeys qs := fun r hr => hall r (List.mem_cons_of_mem q hr)
      have hlt : pyLt p.2 q.2 = .ok (strLtB a b) := pyLt_str a b hp hq
      by_cases hb : strLtB a b = true
      · simp [insortDesc, insortStr, hlt, hb, pKey_str hp, pKey_str hq, ih hqs,
              exceptOkBind]
      · simp only [Bool.not_eq_true] at hb
        simp [insortDesc, insortStr, hlt, hb, pKey_str hp, pKey_str hq,
              exceptOkBind]

theorem insortStr_mem (p : PyVal × PyVal) :
    ∀ qs r, r ∈ insortStr p qs → r = p ∨ r ∈ qs := by
  intro qs
  induction qs with
  | nil =>
      intro r hr
      simp [insortStr] at hr
      exact Or.inl hr
  | cons q qs ih =>
      intro r hr
      by_cases hb : strLtB (pKey p) (pKey q) = true
      · simp only [insortStr, if_pos hb, List.mem_cons] at hr
        rcases hr with hr | hr
        · exact Or.inr (by simp [hr])
        · rcases ih r hr with h | h
          · exact Or.inl h
          · exact Or.inr (List.mem_cons_of_mem q h)
      · simp only [insortStr, if_neg hb, List.mem_cons] at hr
        rcases hr with hr | hr
        · exact Or.inl hr
        · exact Or.inr (List.mem_cons.mpr hr)

theorem sortStr_mem :
    ∀ ps r, r ∈ sortStr ps → r ∈ ps := by
  intro ps
  induction ps with
  | nil =>
      intro r hr
      simp [sortStr] at hr
  | cons p ps ih =>
      intro r hr
      simp only [sortStr] at hr
      rcases insortStr_mem p (sortStr ps) r hr with h | h
      · simp [h]
      · exact List.mem_cons_of_mem p (ih r h)

theorem sortPairsDesc_eq_sortStr :
    ∀ ps, allStrKeys ps → sortPairsDesc ps = .ok (sortStr ps) := by
  intro ps
  induction ps with
  | nil => intro _; rfl
  | cons p ps ih =>
      intro hall
      obtain ⟨a, hp⟩ := hall p (List.mem_cons_self p ps)
      have hps : allStrKeys ps := fun r hr => hall r (List.mem_cons_of_mem p hr)
      have hsorted : allStrKeys (sortStr ps) := fun r hr =>
        hps r (sortStr_mem ps r hr)
      simp [sortPairsDesc, ih hps, exceptOkBind, sortStr,
            insortDesc_eq_insortStr p a hp (sortStr ps) hsorted]

theorem pairFM_cons :
    ∀ (ps : List (PyVal × PyVal)) (b y : PyVal × PyVal),
      pairFM b (y :: ps) =
        (if strLtB (pKey b) (pKey (pairFM y ps)) then pairFM y ps else b) := by
  intro ps
  induction ps with
  | nil => intro b y; rfl
  | cons z zs ih =>
      intro b y
      have hstep : pairFM b (y :: z :: zs)
          = if strLtB (pKey b) (pKey y) then pairFM y (z :: zs)
            else pairFM b (z :: zs) := rfl
      rw [hstep, ih y z, ih b z]
      by_cases h1 : strLtB (pKey y) (pKey (pairFM z zs)) = true
      · simp only [h1, if_true]
        by_cases h2 : strLtB (pKey b) (pKey y) = true
        · have h3 := strLtB_trans h2 h1
          simp [h2, h3]
        · simp only [Bool.not_eq_true] at h2
          simp [h2]
      · simp only [Bool.not_eq_true] at h1
        simp only [h1, Bool.false_eq_true, if_false]
        by_cases h2 : strLtB (pKey b) (pKey y) = true
        · simp [h2]
        · simp only [Bool.not_eq_true] at h2
          have h3 := strLtB_false_trans h2 h1
          simp [h2, h3]

theorem sortStr_head :
    ∀ (ps : List (PyVal × PyVal)) (p : PyVal × PyVal),
      (sortStr (p :: ps)).head? = some (pairFM p ps) := by
  intro ps
  induction ps with
  | nil => intro p; rfl
  | cons q ps ih =>
      intro p
      have hs : sortStr (p :: q :: ps) = insortStr p (sortStr (q :: ps)) := rfl
      obtain ⟨h, t, hht⟩ : ∃ h t, sortStr (q :: ps) = h :: t := by
        cases hsq : sortStr (q :: ps) with
        | nil =>
            have := ih q
            rw [hsq] at this
            simp at this
        | cons h t => exact ⟨h, t, rfl⟩
      have hh : h = pairFM q ps := by
        have := ih q
        rw [hht] at this
        simpa using this
      rw [hs, hht, pairFM_cons ps p q, ← hh]
      by_cases hc : strLtB (pKey p) (pKey h) = true
      · simp [insortStr, hc]
      · simp only [Bool.not_eq_true] at hc
        simp [insortStr, hc]

/-! ### Date-field plumbing for the status resolver -/

theorem dictDate_isSome_elim {hw : PyVal} (h : (dictDate hw).isSome = true) :
    ∃ kvs s, hw = PyVal.dict kvs ∧ lookupKey "date_updated" kvs = some (PyVal.str s)
      ∧ dateOf hw = s := by
  cases hw with
  | dict kvs =>
      cases hl : lookupKey "date_updated" kvs with
      | none => simp [dictDate, hl] at h
      | some v =>
          cases v with
          | str s =>
              exact ⟨kvs, s, rfl, hl, by simp [dateOf, dictDate, hl]⟩
          | int n => simp [dictDate, hl] at h
          | bool b => simp [dictDate, hl] at h
          | null => simp [dictDate, hl] at h
          | list xs => simp [dictDate, hl] at h
          | dict kvs2 => simp [dictDate, hl] at h
  | str s => simp [dictDate] at h
  | int n => simp [dictDate] at h
  | bool b => simp [dictDate] at h
  | null => simp [dictDate] at h
  | list xs => simp [dictDate] at h

theorem checkDates_ok :
    ∀ items : List PyVal, (∀ hw ∈ items, (dictDate hw).isSome = true) →
      checkDates items = .ok () := by
  intro items
  induction items with
  | nil => intro _; rfl
  | cons hw rest ih =>
      intro hall
      obtain ⟨kvs, s, hhw, hl, _⟩ :=
        dictDate_isSome_elim (hall hw (List.mem_cons_self hw rest))
      have hc : pyContains "date_updated" hw = .ok true := by
        rw [hhw, pyContains_dict]
        simp [hl]
      simp [checkDates, hc, exceptOkBind,
            ih (fun r hr => hall r (List.mem_cons_of_mem hw hr))]

theorem decorateDates_ok :
    ∀ items : List PyVal, (∀ hw ∈ items, (dictDate hw).isSome = true) →
      decorateDates items
        = .ok (items.map (fun hw => (hw, PyVal.str (dateOf hw)))) := by
  intro items
  induction items with
  | nil => intro _; rfl
  | cons hw rest ih =>
      intro hall
      obtain ⟨kvs, s, hhw, hl, hdate⟩ :=
        dictDate_isSome_elim (hall hw (List.mem_cons_self hw rest))
      have hidx : pyIndex "date_updated" hw = .ok (PyVal.str s) := by
        rw [hhw]
        simp [pyIndex, hl]
      simp [decorateDates, hidx, exceptOkBind, hdate,
            ih (fun r hr => hall r (List.mem_cons_of_mem hw hr))]

theorem pairFM_map :
    ∀ (items : List PyVal) (b : PyVal),
      pairFM (b, PyVal.str (dateOf b))
          (items.map (fun hw => (hw, PyVal.str (dateOf hw))))
        = (firstMaxAux b items, PyVal.str (dateOf (firstMaxAux b items))) := by
  intro items
  induction items with
  | nil => intro b; rfl
  | cons y ys ih =>
      intro b
      by_cases hc : strLtB (dateOf b) (dateOf y) = true
      · simp [List.map_cons, pairFM, pKey, hc, firstMaxAux, ih]
      · simp only [Bool.not_eq_true] at hc
        simp [List.map_cons, pairFM, pKey, hc, firstMaxAux, ih]

theorem checkDates_err :
    ∀ items : List PyVal,
      (∀ hw ∈ items, ∃ kvs, hw = PyVal.dict kvs) →
      (∃ hw, hw ∈ items ∧ hasDateKey hw = false) →
      checkDates items
        = .error (.keyError "Не у всех работ указана дата обновления") := by
  intro items
  induction items with
  | nil =>
      intro _ hex
      obtain ⟨hw, hmem, _⟩ := hex
      exact absurd hmem (List.not_mem_nil hw)
  | cons hw rest ih =>
      intro hall hex
      obtain ⟨kvs, hhw⟩ := hall hw (List.mem_cons_self hw rest)
      by_cases hd : hasDateKey hw = true
      · have hd' : (lookupKey "date_updated" kvs).isSome = true := by
          rw [hhw] at hd
          simpa [hasDateKey] using hd
        have hcont : pyContains "date_updated" hw = .ok true := by
          rw [hhw, pyContains_dict, hd']
        obtain ⟨w, hwmem, hwkey⟩ := hex
        have hwrest : w ∈ rest := by
          rcases List.mem_cons.mp hwmem with h | h
          · exfalso
            rw [h] at hwkey
            rw [hwkey] at hd
            simp at hd
          · exact h
        simp [checkDates, hcont, exceptOkBind,
              ih (fun r hr => hall r (List.mem_cons_of_mem hw hr)) ⟨w, hwrest, hwkey⟩]
      · simp only [Bool.not_eq_true] at hd
        have hd' : (lookupKey "date_updated" kvs).isSome = false := by
          rw [hhw] at hd
          simpa [hasDateKey] using hd
        have hcont : pyContains "date_updated" hw = .ok false := by
          rw [hhw, pyContains_dict, hd']
        simp [checkDates, hcont, exceptOkBind]

/-- C7: for a response whose `"homeworks"` list is non-empty and whose
items all carry a string `date_updated`, `get_latest_homework` returns the
item with the maximum `date_updated` under the lexical order, picking the
element appearing first in original order among equal keys (the value of
`first_max_by_date`, modelled from the spec); and when every item is a
dict but some item lacks `date_updated`, it raises the `KeyError` of the
validation loop. -/
theorem C7_get_latest_homework :
    (∀ (x : PyVal) (xs : List PyVal),
        (∀ hw ∈ x :: xs, (dictDate hw).isSome = true) →
        get_latest_homework (PyVal.dict [("homeworks", PyVal.list (x :: xs))])
          = .ok ((first_max_by_date (x :: xs)).getD PyVal.null)) ∧
    (∀ items : List PyVal,
        (∀ hw ∈ items, ∃ kvs, hw = PyVal.dict kvs) →
        (∃ hw, hw ∈ items ∧ hasDateKey hw = false) →
        get_latest_homework (PyVal.dict [("homeworks", PyVal.list items)])
          = .error (.keyError "Не у всех работ указана дата обновления")) := by
  constructor
  · intro x xs hall
    have hidx : pyIndex "homeworks"
        (PyVal.dict [("homeworks", PyVal.list (x :: xs))])
        = .ok (PyVal.list (x :: xs)) := rfl
    have hck := checkDates_ok (x :: xs) hall
    have hdec := decorateDates_ok (x :: xs) hall
    have hmap : (x :: xs).map (fun hw => (hw, PyVal.str (dateOf hw)))
        = (x, PyVal.str (dateOf x))
            :: xs.map (fun hw => (hw, PyVal.str (dateOf hw))) := rfl
    have hstr : allStrKeys ((x :: xs).map (fun hw => (hw, PyVal.str (dateOf hw)))) := by
      intro q hq
      obtain ⟨hw, _, rfl⟩ := List.mem_map.mp hq
      exact ⟨dateOf hw, rfl⟩
    have hsort := sortPairsDesc_eq_sortStr _ hstr
    have hhead := sortStr_head (xs.map (fun hw => (hw, PyVal.str (dateOf hw))))
      (x, PyVal.str (dateOf x))
    have hfm := pairFM_map xs x
    obtain ⟨t, ht⟩ : ∃ t,
        sortStr ((x, PyVal.str (dateOf x))
            :: xs.map (fun hw => (hw, PyVal.str (dateOf hw))))
          = pairFM (x, PyVal.str (dateOf x))
              (xs.map (fun hw => (hw, PyVal.str (dateOf hw)))) :: t := by
      cases hsq : sortStr ((x, PyVal.str (dateOf x))
          :: xs.map (fun hw => (hw, PyVal.str (dateOf hw)))) with
      | nil =>
          rw [hsq] at hhead
          simp at hhead
      | cons h t =>
          rw [hsq] at hhead
          simp only [List.head?_cons, Option.some.injEq] at hhead
          exact ⟨t, by rw [hhead]⟩
    rw [hmap] at hsort
    simp [get_latest_homework, hidx, exceptOkBind, hck, hdec, hmap, hsort,
          ht, hfm, first_max_by_date]
  · intro items hall hex
    have hidx : pyIndex "homeworks" (PyVal.dict [("homeworks", PyVal.list items)])
        = .ok (PyVal.list items) := rfl
    simp [get_latest_homework, hidx, exceptOkBind, exceptErrBind,
          checkDates_err items hall hex]

/-! ### HTTPStatus construction lemmas -/

theorem httpStatusOf_valid {c : Nat} {ph : String} (h : statusPhrase c = some ph) :
    httpStatusOf c = .ok (c, ph) := by
  unfold statusPhrase at h
  obtain ⟨p, hp, hp2⟩ := Option.map_eq_some'.mp h
  have hc : p.1 = c := by
    have := List.find?_some hp
    simpa using this
  unfold httpStatusOf
  rw [hp]
  cases p
  simp_all

theorem httpStatusOf_invalid {c : Nat} (h : statusPhrase c = none) :
    httpStatusOf c
      = .error (.valueError (toString c ++ " is not a valid HTTPStatus")) := by
  unfold statusPhrase at h
  have hf : httpStatusMembers.find? (fun p => p.1 = c) = none :=
    Option.map_eq_none'.mp h
  unfold httpStatusOf
  rw [hf]

/-! ### Claims C3, C4, C10: the API client -/

/-- C3 (counterexample): a response with the non-200 status 599, which is
not an `HTTPStatus` member, makes `get_api_answer` raise `ValueError`
from `HTTPStatus(value=...)`, not the `RequestError` the claim promises
for every non-200 status. -/
theorem C3_counterexample :
    isRequestError (get_api_answer (.resp ⟨599, "body", .ok PyVal.null⟩)) = false ∧
    get_api_answer (.resp ⟨599, "body", .ok PyVal.null⟩)
      = .error (.valueError "599 is not a valid HTTPStatus") := by
  exact ⟨rfl, rfl⟩

/-- C3 (amended): `get_api_answer` classifies failures as the claim says,
with the non-200 case restricted to status codes that are `HTTPStatus`
members: transport failures raise `RequestError` wrapping the cause;
member statuses other than 200 raise `RequestError` carrying the numeric
code, the status phrase and the raw body; a 200 response whose body fails
to decode raises `UnexpectedResponseData`. -/
theorem C3_classification_amended :
    (∀ msg : String, get_api_answer (.exn msg)
        = .error (.requestError ("Ошибка при совершении запроса к API: " ++ msg))) ∧
    (∀ (r : HttpResponse) (ph : String), statusPhrase r.status_code = some ph →
        r.status_code ≠ 200 →
        get_api_answer (.resp r) = .error (.requestError
          ("Статус ответа: " ++ toString r.status_code ++ " " ++ ph ++ ". " ++
           "Полный текст: " ++ r.text))) ∧
    (∀ (t err : String), get_api_answer (.resp ⟨200, t, .error err⟩)
        = .error (.unexpectedResponseData ("Не удалось распарсить ответ: " ++ err))) := by
  refine ⟨fun msg => rfl, ?_, fun t err => rfl⟩
  intro r ph hph h200
  simp [get_api_answer, exceptOkBind, exceptErrBind, httpStatusOf_valid hph, h200]

/-- C3 (witness): the amended classification at a concrete 404 response. -/
theorem C3_witness :
    get_api_answer (.resp ⟨404, "oops", .ok PyVal.null⟩)
      = .error (.requestError
          ("Статус ответа: " ++ toString (404 : Nat) ++ " " ++ "Not Found" ++ ". " ++
           "Полный текст: " ++ "oops")) :=
  C3_classification_amended.2.1 ⟨404, "oops", .ok PyVal.null⟩ "Not Found" rfl (by decide)

/-- C4: a response whose status code is not an `HTTPStatus` member makes
`get_api_answer` raise the `ValueError` of `HTTPStatus` construction
rather than a `RequestError`; and a `RequestError` raised on an actual
response is possible only when the status code is a member and is not
200. -/
theorem C4_invalid_status :
    (∀ r : HttpResponse, statusPhrase r.status_code = none →
        get_api_answer (.resp r)
          = .error (.valueError (toString r.status_code ++ " is not a valid HTTPStatus"))) ∧
    (∀ (r : HttpResponse) (m : String),
        get_api_answer (.resp r) = .error (.requestError m) →
        (statusPhrase r.status_code).isSome = true ∧ r.status_code ≠ 200) := by
  constructor
  · intro r h
    simp [get_api_answer, exceptOkBind, exceptErrBind, httpStatusOf_invalid h]
  · intro r m h
    cases hs : statusPhrase r.status_code with
    | none =>
        rw [show get_api_answer (.resp r)
              = .error (.valueError (toString r.status_code ++ " is not a valid HTTPStatus")) from by
            simp [get_api_answer, exceptOkBind, exceptErrBind, httpStatusOf_invalid hs]] at h
        exact absurd h (by simp)
    | some ph =>
        by_cases h200 : r.status_code = 200
        · exfalso
          have hv := httpStatusOf_valid hs
          rw [h200] at hv
          cases hj : r.json with
          | ok v =>
              rw [show get_api_answer (.resp r) = .ok v from by
                  simp [get_api_answer, exceptOkBind, h200, hv, hj]] at h
              exact absurd h (by simp)
          | error e =>
              rw [show get_api_answer (.resp r)
                    = .error (.unexpectedResponseData ("Не удалось распарсить ответ: " ++ e)) from by
                  simp [get_api_answer, exceptOkBind, h200, hv, hj]] at h
              exact absurd h (by simp)
        · exact ⟨by simp [hs], h200⟩

/-- C4 (witness): the `ValueError` branch at status 599 and the
reachability direction at a concrete 404 response. -/
theorem C4_witness :
    get_api_answer (.resp ⟨599, "body", .ok PyVal.null⟩)
      = .error (.valueError (toString (599 : Nat) ++ " is not a valid HTTPStatus")) ∧
    ((statusPhrase 404).isSome = true ∧ (404 : Nat) ≠ 200) :=
  ⟨C4_invalid_status.1 ⟨599, "body", .ok PyVal.null⟩ rfl,
   C4_invalid_status.2 ⟨404, "oops", .ok PyVal.null⟩
     ("Статус ответа: " ++ toString (404 : Nat) ++ " " ++ "Not Found" ++ ". " ++
      "Полный текст: " ++ "oops") rfl⟩

/-- C10: on an HTTP 200 response whose body decodes, `get_api_answer`
returns the decoded value unchanged; by construction it consumes exactly
one `RequestResult`, so no internal retry exists. -/
theorem C10_round_trip :
    ∀ (t : String) (v : PyVal),
      get_api_answer (.resp ⟨200, t, .ok v⟩) = .ok v := by
  intro t v
  rfl

/-- C9: `check_tokens` is true exactly when each of the three environment
values is present and non-empty. -/
theorem C9_check_tokens :
    ∀ t p c : Option String,
      check_tokens ⟨t, p, c⟩ = true ↔
        ((∃ s, t = some s ∧ s ≠ "") ∧ (∃ s, p = some s ∧ s ≠ "") ∧
         (∃ s, c = some s ∧ s ≠ "")) := by
  intro t p c
  cases t <;> cases p <;> cases c <;>
    simp [check_tokens, pyTruthyOpt, and_assoc]

/-- C9 (witness): with all three values set and non-empty, `check_tokens`
is true. -/
theorem C9_witness :
    check_tokens ⟨some "a", some "b", some "c"⟩ = true :=
  (C9_check_tokens (some "a") (some "b") (some "c")).mpr
    ⟨⟨"a", rfl, by decide⟩, ⟨"b", rfl, by decide⟩, ⟨"c", rfl, by decide⟩⟩

/-! ### Claim C6: the response validator -/

/-- C6: `check_response` checks its rules in source order — `TypeError`
for a non-dict response, `KeyError` for a missing `"homeworks"` key,
`TypeError` for a non-list value, `UnexpectedResponseData` for an empty
list — and returns without raising on every dict holding a non-empty
list under `"homeworks"`. -/
theorem C6_check_response :
    (∀ v : PyVal, (∀ kvs, v ≠ PyVal.dict kvs) →
        check_response v = .error (.typeError "Тип данных ответа отличается от dict")) ∧
    (∀ kvs, lookupKey "homeworks" kvs = none →
        check_response (PyVal.dict kvs)
          = .error (.keyError "В ответе отсутствует ключ со списком работ")) ∧
    (∀ kvs hws, lookupKey "homeworks" kvs = some hws →
        (∀ xs, hws ≠ PyVal.list xs) →
        check_response (PyVal.dict kvs)
          = .error (.typeError "Тип данных списка работ отличается от list")) ∧
    (∀ kvs, lookupKey "homeworks" kvs = some (PyVal.list []) →
        check_response (PyVal.dict kvs)
          = .error (.unexpectedResponseData
              ("API вернула пустой список домашних работ: " ++
               "ни одна работа пока не взята на проверку"))) ∧
    (∀ kvs x xs, lookupKey "homeworks" kvs = some (PyVal.list (x :: xs)) →
        check_response (PyVal.dict kvs) = .ok ()) := by
  refine ⟨?_, ?_, ?_, ?_, ?_⟩
  · intro v h
    cases v with
    | dict kvs => exact absurd rfl (h kvs)
    | str s => rfl
    | int n => rfl
    | bool b => rfl
    | null => rfl
    | list xs => rfl
  · intro kvs h
    simp [check_response, h]
  · intro kvs hws h hnl
    cases hws with
    | list xs => exact absurd rfl (hnl xs)
    | str s => simp [check_response, h]
    | int n => simp [check_response, h]
    | bool b => simp [check_response, h]
    | null => simp [check_response, h]
    | dict kvs2 => simp [check_response, h]
  · intro kvs h
    simp [check_response, h]
  · intro kvs x xs h
    simp [check_response, h]

/-- C6 (witness): each validator rule at the spec's concrete examples. -/
theorem C6_witness :
    check_response (PyVal.int 0)
      = .error (.typeError "Тип данных ответа отличается от dict") ∧
    check_response (PyVal.dict [])
      = .error (.keyError "В ответе отсутствует ключ со списком работ") ∧
    check_response (PyVal.dict [("homeworks", PyVal.str "x")])
      = .error (.typeError "Тип данных списка работ отличается от list") ∧
    check_response (PyVal.dict [("homeworks", PyVal.list [])])
      = .error (.unexpectedResponseData
          ("API вернула пустой список домашних работ: " ++
           "ни одна работа пока не взята на проверку")) ∧
    check_response (PyVal.dict [("homeworks", PyVal.list [PyVal.int 0])]) = .ok () :=
  ⟨C6_check_response.1 (PyVal.int 0) (fun _kvs h => PyVal.noConfusion h),
   C6_check_response.2.1 [] rfl,
   C6_check_response.2.2.1 [("homeworks", PyVal.str "x")] (PyVal.str "x") rfl
     (fun _xs h => PyVal.noConfusion h),
   C6_check_response.2.2.2.1 [("homeworks", PyVal.list [])] rfl,
   C6_check_response.2.2.2.2 [("homeworks", PyVal.list [PyVal.int 0])] (PyVal.int 0) [] rfl⟩

/-! ### Claim C8: parse_status -/

theorem verdict_any_eq (s : String) :
    (HOMEWORK_VERDICTS.any (fun p => p.1 = s)) = (verdictLookup s).isSome := by
  rw [any_eq_isSome_find]
  unfold verdictLookup
  cases HOMEWORK_VERDICTS.find? (fun p => p.1 = s) <;> rfl

/-- C8: `parse_status` raises a distinct `KeyError` for each violation —
missing `homework_name`, missing `status`, `status` value (a string) not
in the verdict vocabulary — and on every item with both keys and a
vocabulary status it produces the fixed-template message quoting the
item's name and appending the vocabulary phrase (the source renders the
template in Russian). -/
theorem C8_parse_status :
    (∀ kvs, lookupKey "homework_name" kvs = none →
        parse_status (PyVal.dict kvs)
          = .error (.keyError "У домашней работы отсутствет название")) ∧
    (∀ kvs, (lookupKey "homework_name" kvs).isSome = true →
        lookupKey "status" kvs = none →
        parse_status (PyVal.dict kvs)
          = .error (.keyError "У домашней работы отсутствет статус")) ∧
    (∀ kvs s, (lookupKey "homework_name" kvs).isSome = true →
        lookupKey "status" kvs = some (PyVal.str s) →
        verdictLookup s = none →
        parse_status (PyVal.dict kvs)
          = .error (.keyError "Домашняя работа содержит неизвестный статус")) ∧
    (∀ kvs name s verdict,
        lookupKey "homework_name" kvs = some name →
        lookupKey "status" kvs = some (PyVal.str s) →
        verdictLookup s = some verdict →
        parse_status (PyVal.dict kvs)
          = .ok ("Изменился статус проверки работы \"" ++ pyStr name ++ "\". " ++ verdict)) ∧
    (("У домашней работы отсутствет название" : String)
        ≠ "У домашней работы отсутствет статус" ∧
     ("У домашней работы отсутствет статус" : String)
        ≠ "Домашняя работа содержит неизвестный статус" ∧
     ("У домашней работы отсутствет название" : String)
        ≠ "Домашняя работа содержит неизвестный статус") := by
  refine ⟨?_, ?_, ?_, ?_, by decide, by decide, by decide⟩
  · intro kvs h
    simp [parse_status, pyContains_dict, h, exceptOkBind, exceptThrowBind]
  · intro kvs hname h
    simp [parse_status, pyContains_dict, hname, h, exceptOkBind, exceptThrowBind]
  · intro kvs s hname hstatus hv
    simp [parse_status, pyContains_dict, hname, hstatus, pyIndex,
          verdict_any_eq, hv, exceptOkBind, exceptThrowBind]
  · intro kvs name s verdict hname hstatus hv
    simp [parse_status, pyContains_dict, hname, hstatus, pyIndex,
          verdict_any_eq, hv, exceptOkBind, exceptThrowBind]

/-- C8 (witness): the template message and the unknown-status error at
concrete items. -/
theorem C8_witness :
    parse_status (PyVal.dict
        [("homework_name", PyVal.str "hw1"), ("status", PyVal.str "approved")])
      = .ok ("Изменился статус проверки работы \"" ++ pyStr (PyVal.str "hw1") ++ "\". " ++
             "Работа проверена: ревьюеру всё понравилось. Ура!") ∧
    parse_status (PyVal.dict
        [("homework_name", PyVal.str "hw1"), ("status", PyVal.str "weird")])
      = .error (.keyError "Домашняя работа содержит неизвестный статус") :=
  ⟨C8_parse_status.2.2.2.1
      [("homework_name", PyVal.str "hw1"), ("status", PyVal.str "approved")]
      (PyVal.str "hw1") "approved" "Работа проверена: ревьюеру всё понравилось. Ура!"
      rfl rfl rfl,
   C8_parse_status.2.2.1
      [("homework_name", PyVal.str "hw1"), ("status", PyVal.str "weird")]
      "weird" rfl rfl rfl⟩

/-! ### Claims C1, C2, C5: the main loop -/

/-- C1 (counterexample): two consecutive cycles that both compute the
same `current_status`, entered with `previous_status` already equal to
that string, attempt zero notifications — not exactly one as the claim
states. -/
theorem C1_counterexample :
    computeCurrentStatus (RequestResult.exn "boom")
      = "Технические неполадки: Ошибка при совершении запроса к API: boom" ∧
    (run_cycles [⟨.exn "boom", .ok ()⟩, ⟨.exn "boom", .ok ()⟩]
        "Технические неполадки: Ошибка при совершении запроса к API: boom").2 = 0 ∧
    (0 : Nat) ≠ 1 :=
  ⟨rfl, rfl, by decide⟩

/-- C1 (amended): a notification is attempted only when the newly
computed `current_status` differs from `previous_status`; and two
consecutive cycles computing identical `current_status` produce exactly
one attempt in total provided that status differs from the
`previous_status` entering the first cycle and the first attempt
succeeds. -/
theorem C1_dedup_amended :
    (∀ (env : CycleEnv) (prev : String),
        (run_cycle env prev).send_attempted = true →
        computeCurrentStatus env.api ≠ prev) ∧
    (∀ (e1 e2 : CycleEnv) (prev c : String),
        computeCurrentStatus e1.api = c →
        computeCurrentStatus e2.api = c →
        c ≠ prev →
        e1.botSend = .ok () →
        (run_cycles [e1, e2] prev).2 = 1) := by
  constructor
  · intro env prev h hceq
    simp [run_cycle, hceq] at h
  · intro e1 e2 prev c h1 h2 hne hbot
    have hc1 : run_cycle e1 prev = ⟨c, true⟩ := by
      simp [run_cycle, h1, hne, send_message, hbot]
    have hc2 : run_cycle e2 c = ⟨c, false⟩ := by
      simp [run_cycle, h2]
    simp [run_cycles, hc1, hc2]

/-- C1 (witness): from empty `previous_status`, two cycles computing the
same failure status attempt exactly one notification. -/
theorem C1_witness :
    (run_cycles [⟨.exn "boom", .ok ()⟩, ⟨.exn "boom", .ok ()⟩] "").2 = 1 ∧
    computeCurrentStatus (RequestResult.exn "boom") ≠ "" :=
  ⟨C1_dedup_amended.2 ⟨.exn "boom", .ok ()⟩ ⟨.exn "boom", .ok ()⟩ ""
      "Технические неполадки: Ошибка при совершении запроса к API: boom"
      rfl rfl (by decide) rfl,
   C1_dedup_amended.1 ⟨.exn "boom", .ok ()⟩ "" rfl⟩

/-- C2: once configuration validation passes, the loop runs every cycle
to completion — every exception of the known subset is converted to the
"Технические неполадки" status, every other exception to the
"Неизвестный сбой в работе" status, and `main` observed over any finite
number of cycles is still running; the only aborting outcome is failed
configuration validation at startup, which exits with the critical
message. -/
theorem C2_loop_never_terminates :
    (∀ (env : Env) (cycles : List CycleEnv), check_tokens env = true →
        ∃ p n, Homework.main env cycles = .running p n) ∧
    (∀ e : Err, isCycleKnownError e = true →
        handleCycleError e = "Технические неполадки: " ++ errStr e) ∧
    (∀ e : Err,
        handleCycleError e = "Технические неполадки: " ++ errStr e ∨
        handleCycleError e = "Неизвестный сбой в работе: " ++ errStr e) ∧
    (∀ (env : Env) (cycles : List CycleEnv), check_tokens env = false →
        Homework.main env cycles
          = .aborted "Не все переменные окружения доступны") := by
  refine ⟨?_, ?_, ?_, ?_⟩
  · intro env cycles h
    rcases hrc : run_cycles cycles "" with ⟨p, n⟩
    exact ⟨p, n, by simp [Homework.main, h, hrc]⟩
  · intro e h
    simp [handleCycleError, h]
  · intro e
    by_cases h : isCycleKnownError e = true
    · exact Or.inl (by simp [handleCycleError, h])
    · simp only [Bool.not_eq_true] at h
      exact Or.inr (by simp [handleCycleError, h])
  · intro env cycles h
    simp [Homework.main, h]

/-- C2 (witness): a passing configuration keeps running through a failing
cycle; a missing token aborts with the critical message; a known error is
classified as technical difficulties. -/
theorem C2_witness :
    (∃ p n, Homework.main ⟨some "a", some "b", some "c"⟩
        [⟨.exn "boom", .ok ()⟩] = .running p n) ∧
    handleCycleError (.requestError "x")
      = "Технические неполадки: " ++ errStr (.requestError "x") ∧
    Homework.main ⟨none, some "b", some "c"⟩ []
      = .aborted "Не все переменные окружения доступны" :=
  ⟨C2_loop_never_terminates.1 ⟨some "a", some "b", some "c"⟩
      [⟨.exn "boom", .ok ()⟩] (by decide),
   C2_loop_never_terminates.2.1 (.requestError "x") rfl,
   C2_loop_never_terminates.2.2.2 ⟨none, some "b", some "c"⟩ [] (by decide)⟩

/-- C5: when the notification attempt of a cycle fails with
`MessageNotSent`, `current_status` is overwritten with the
failed-to-send message, which is not re-compared or re-sent that cycle
(exactly one attempt happens), `previous_status` becomes that failure
message, and the loop simply continues with the remaining cycles. -/
theorem C5_send_failure :
    ∀ (api : RequestResult) (m prev : String),
      computeCurrentStatus api ≠ prev →
      (run_cycle ⟨api, .error m⟩ prev
        = ⟨"Не удалось отправить сообщение: " ++ ("Ошибка при отправке: " ++ m),
           true⟩) ∧
      (∀ rest : List CycleEnv,
        run_cycles (⟨api, .error m⟩ :: rest) prev
          = ((run_cycles rest
               ("Не удалось отправить сообщение: " ++ ("Ошибка при отправке: " ++ m))).1,
             1 + (run_cycles rest
               ("Не удалось отправить сообщение: " ++ ("Ошибка при отправке: " ++ m))).2)) := by
  intro api m prev hne
  have hc : run_cycle ⟨api, .error m⟩ prev
      = ⟨"Не удалось отправить сообщение: " ++ ("Ошибка при отправке: " ++ m),
         true⟩ := by
    simp [run_cycle, hne, send_message, errStr]
  refine ⟨hc, fun rest => ?_⟩
  simp [run_cycles, hc]

/-- C5 (witness): a concrete cycle whose bot call fails leaves the
failed-to-send message as `previous_status` after one attempt. -/
theorem C5_witness :
    run_cycle ⟨.exn "boom", .error "net down"⟩ ""
      = ⟨"Не удалось отправить сообщение: " ++ ("Ошибка при отправке: " ++ "net down"),
         true⟩ :=
  (C5_send_failure (.exn "boom") "net down" "" (by decide)).1

/-- C7 (witness): the spec's two-item example returns the later item, and
a single item lacking `date_updated` raises the validation `KeyError`. -/
theorem C7_witness :
    get_latest_homework (PyVal.dict [("homeworks", PyVal.list
        [PyVal.dict [("date_updated", PyVal.str "2023-01-01")],
         PyVal.dict [("date_updated", PyVal.str "2023-02-01")]])])
      = .ok (PyVal.dict [("date_updated", PyVal.str "2023-02-01")]) ∧
    get_latest_homework (PyVal.dict [("homeworks", PyVal.list [PyVal.dict []])])
      = .error (.keyError "Не у всех работ указана дата обновления") := by
  constructor
  · rw [C7_get_latest_homework.1
      (PyVal.dict [("date_updated", PyVal.str "2023-01-01")])
      [PyVal.dict [("date_updated", PyVal.str "2023-02-01")]]
      (by decide)]
    rfl
  · exact C7_get_latest_homework.2 [PyVal.dict []]
      (by
        intro hw hhw
        rw [List.mem_singleton] at hhw
        exact ⟨[], hhw⟩)
      ⟨PyVal.dict [], List.mem_singleton.mpr rfl, rfl⟩
